import Mathlib

/-!
Verification development for the chess-server repository.

The definitions below are a shallow embedding of the Rust sources:
`src/game/piece.rs`, `src/game/board.rs`, `src/game/rules.rs`,
`src/game/game_state.rs`, `src/player/player.rs`, `src/player/mod.rs` and
`src/network/protocol.rs`.  Machine integers (`u8`, `u32`, `i8`, `i32`) are
modelled as `Nat`/`Int`: every arithmetic step performed by the embedded code
stays far inside the corresponding machine range, so no wrap-around is elided.
`f64` arithmetic in the Elo calculator is modelled over `ℚ`, with the single
transcendental call (`10.0_f64.powf`) abstracted as a function parameter.
Fallible Rust functions returning `Result` become `Except String`.
-/

namespace ChessServer

/-- Mirrors `Color` (piece.rs). -/
inductive Color where
  | white
  | black
  deriving DecidableEq, Repr

/-- Mirrors `Color::opposite` (piece.rs). -/
def Color.opposite : Color → Color
  | .white => .black
  | .black => .white

/-- Mirrors `PieceType` (piece.rs). -/
inductive PieceType where
  | pawn
  | rook
  | knight
  | bishop
  | queen
  | king
  deriving DecidableEq, Repr

/-- Mirrors `Piece` (piece.rs): kind, color and the derived `has_moved` flag. -/
structure Piece where
  pieceType : PieceType
  color : Color
  hasMoved : Bool
  deriving DecidableEq, Repr

/-- Mirrors `Piece::new` (piece.rs): `has_moved` starts false. -/
def Piece.new (pieceType : PieceType) (color : Color) : Piece :=
  ⟨pieceType, color, false⟩

/-- Mirrors `Piece::to_fen_char` (piece.rs). -/
def Piece.toFenChar (p : Piece) : Char :=
  match p.color, p.pieceType with
  | .white, .pawn => 'P'
  | .white, .rook => 'R'
  | .white, .knight => 'N'
  | .white, .bishop => 'B'
  | .white, .queen => 'Q'
  | .white, .king => 'K'
  | .black, .pawn => 'p'
  | .black, .rook => 'r'
  | .black, .knight => 'n'
  | .black, .bishop => 'b'
  | .black, .queen => 'q'
  | .black, .king => 'k'

/-- Mirrors `Position` (piece.rs): a pair of `u8` coordinates.  The Rust struct
does not enforce the bound; `is_valid` checks it. -/
structure Position where
  file : Nat
  rank : Nat
  deriving DecidableEq, Repr

/-- Mirrors `Position::is_valid` (piece.rs): both coordinates below 8. -/
def Position.isValid (p : Position) : Bool :=
  p.file < 8 && p.rank < 8

/-- Mirrors `Position::new(file, rank)` at call sites of the form
`Position::new(x as u8, y as u8)` where `x`, `y` are `i8` values: a negative
`i8` casts to a `u8` of at least 128, so exactly the values in `0..=7` yield
`Some`.  (All `i8` intermediates produced by the embedded code lie well within
the `i8` range.) -/
def Position.new? (file rank : Int) : Option Position :=
  if 0 ≤ file ∧ file < 8 ∧ 0 ≤ rank ∧ rank < 8 then
    some ⟨file.toNat, rank.toNat⟩
  else
    none

/-- Mirrors `Position::to_algebraic` (piece.rs). -/
def Position.toAlgebraic (p : Position) : String :=
  ⟨[Char.ofNat (97 + p.file), Char.ofNat (49 + p.rank)]⟩

/-- Mirrors `Move` (piece.rs).  The Rust field names `from`/`to` are Lean
keywords, hence `fromPos`/`toPos`. -/
structure Move where
  fromPos : Position
  toPos : Position
  promotion : Option PieceType
  isCastle : Bool
  isEnPassant : Bool
  deriving DecidableEq, Repr

/-- Mirrors `Move::new` (piece.rs). -/
def Move.new (fromPos toPos : Position) : Move :=
  ⟨fromPos, toPos, none, false, false⟩

/-- Mirrors `Move::with_promotion` (piece.rs). -/
def Move.withPromotion (fromPos toPos : Position) (promotion : PieceType) : Move :=
  ⟨fromPos, toPos, some promotion, false, false⟩

/-- Mirrors `Move::castle` (piece.rs). -/
def Move.castle (fromPos toPos : Position) : Move :=
  ⟨fromPos, toPos, none, true, false⟩

/-- Mirrors `Move::en_passant` (piece.rs). -/
def Move.enPassant (fromPos toPos : Position) : Move :=
  ⟨fromPos, toPos, none, false, true⟩

/-- Mirrors `CastlingRights` (board.rs). -/
structure CastlingRights where
  whiteKingside : Bool
  whiteQueenside : Bool
  blackKingside : Bool
  blackQueenside : Bool
  deriving DecidableEq, Repr

/-- Mirrors `Board` (board.rs).  `squares[rank][file]` becomes the function
`squares rank file`. -/
structure Board where
  squares : Nat → Nat → Option Piece
  toMove : Color
  castlingRights : CastlingRights
  enPassantTarget : Option Position
  halfmoveClock : Nat
  fullmoveNumber : Nat

/-- Mirrors `Board::get_piece` (board.rs). -/
def Board.getPiece (b : Board) (pos : Position) : Option Piece :=
  if pos.isValid then b.squares pos.rank pos.file else none

/-- Mirrors `Board::place_piece` (board.rs): a no-op on an invalid position. -/
def Board.placePiece (b : Board) (pos : Position) (piece : Piece) : Board :=
  if pos.isValid then
    { b with squares := fun r f =>
        if r = pos.rank ∧ f = pos.file then some piece else b.squares r f }
  else
    b

/-- Mirrors `Board::remove_piece` (board.rs): the updated board together with
the removed piece. -/
def Board.removePiece (b : Board) (pos : Position) : Board × Option Piece :=
  if pos.isValid then
    ({ b with squares := fun r f =>
         if r = pos.rank ∧ f = pos.file then none else b.squares r f },
     b.squares pos.rank pos.file)
  else
    (b, none)

/-- Mirrors `Board::is_empty` (board.rs). -/
def Board.isEmpty (b : Board) (pos : Position) : Bool :=
  (b.getPiece pos).isNone

/-- Mirrors `Board::is_occupied_by` (board.rs). -/
def Board.isOccupiedBy (b : Board) (pos : Position) (color : Color) : Bool :=
  match b.getPiece pos with
  | some piece => piece.color = color
  | none => false

/-- Mirrors `Board::empty` (board.rs): no pieces, White to move, all castling
rights off. -/
def Board.empty : Board :=
  { squares := fun _ _ => none
    toMove := .white
    castlingRights := ⟨false, false, false, false⟩
    enPassantTarget := none
    halfmoveClock := 0
    fullmoveNumber := 1 }

/-- The back-rank piece order used by `setup_starting_position` (board.rs). -/
def backRank : List PieceType :=
  [.rook, .knight, .bishop, .queen, .king, .bishop, .knight, .rook]

/-- Mirrors `Board::new` / `setup_starting_position` (board.rs): the standard
starting position with default castling rights. -/
def Board.new : Board :=
  let b0 : Board :=
    { Board.empty with castlingRights := ⟨true, true, true, true⟩ }
  let b1 := (backRank.enum.foldl
    (fun b p => b.placePiece ⟨p.1, 0⟩ (Piece.new p.2 .white)) b0)
  let b2 := ((List.range 8).foldl
    (fun b file => b.placePiece ⟨file, 1⟩ (Piece.new .pawn .white)) b1)
  let b3 := (backRank.enum.foldl
    (fun b p => b.placePiece ⟨p.1, 7⟩ (Piece.new p.2 .black)) b2)
  ((List.range 8).foldl
    (fun b file => b.placePiece ⟨file, 6⟩ (Piece.new .pawn .black)) b3)

/-- The walk inside `Board::is_path_clear` (board.rs): step by `(fs, rs)` until
the target square is reached, failing on any occupied intermediate square.
The Rust `while` loop terminates for every aligned call the validators make
(at most 7 steps); the fuel of 16 strictly bounds those, and exhausting it
(unreachable on the aligned calls) returns `true` like an already-finished
walk. -/
def pathClearWalk (b : Board) (toF toR fs rs curF curR : Int) : Nat → Bool
  | 0 => true
  | fuel + 1 =>
    if curF = toF ∧ curR = toR then true
    else
      let blocked :=
        match Position.new? curF curR with
        | some pos => !b.isEmpty pos
        | none => false
      if blocked then false
      else pathClearWalk b toF toR fs rs (curF + fs) (curR + rs) fuel

/-- Mirrors `Board::is_path_clear` (board.rs): adjacent squares are trivially
clear, otherwise walk the signum-stepped ray strictly between the ends. -/
def Board.isPathClear (b : Board) (fromPos toPos : Position) : Bool :=
  let fileDiff : Int := (toPos.file : Int) - (fromPos.file : Int)
  let rankDiff : Int := (toPos.rank : Int) - (fromPos.rank : Int)
  if fileDiff.natAbs ≤ 1 ∧ rankDiff.natAbs ≤ 1 then true
  else
    pathClearWalk b toPos.file toPos.rank fileDiff.sign rankDiff.sign
      ((fromPos.file : Int) + fileDiff.sign) ((fromPos.rank : Int) + rankDiff.sign) 16

/-- Mirrors `Board::execute_castle` (board.rs): move the king to its target and
re-home the rook; only the rook is marked moved (the `moved_piece` local of
`make_move` is unused on this branch).  The `Position::new(..).unwrap()` calls
are safe here because a piece was found at `from`, so `from.rank < 8`. -/
def Board.executeCastle (b : Board) (m : Move) : Except String Board :=
  match b.removePiece m.fromPos with
  | (_, none) => .error "No king at source position"
  | (b1, some king) =>
    let b2 := b1.placePiece m.toPos king
    let rookFrom : Position :=
      if m.toPos.file > m.fromPos.file then ⟨7, m.fromPos.rank⟩ else ⟨0, m.fromPos.rank⟩
    let rookTo : Position :=
      if m.toPos.file > m.fromPos.file then ⟨5, m.fromPos.rank⟩ else ⟨3, m.fromPos.rank⟩
    match b2.removePiece rookFrom with
    | (_, none) => .error "No rook for castling"
    | (b3, some rook) => .ok (b3.placePiece rookTo { rook with hasMoved := true })

/-- Mirrors `Board::execute_en_passant` (board.rs).  The captured-pawn square is
`Position::new(to.file, from.rank).unwrap()`; the source would panic when
`to.file ≥ 8`, which no bounds-validated move can reach, and the embedding then
removes nothing (an out-of-board `remove_piece` is a no-op). -/
def Board.executeEnPassant (b : Board) (m : Move) : Except String Board :=
  match b.removePiece m.fromPos with
  | (_, none) => .error "No pawn for en passant"
  | (b1, some pawn) =>
    let b2 := b1.placePiece m.toPos pawn
    let capturedPawnPos : Position := ⟨m.toPos.file, m.fromPos.rank⟩
    .ok (b2.removePiece capturedPawnPos).1

/-- Mirrors `Board::update_en_passant_target` (board.rs): clear the target and
set it to the skipped square after a two-square pawn advance. -/
def Board.updateEnPassantTarget (b : Board) (m : Move) (piece : Piece) : Board :=
  let b1 := { b with enPassantTarget := none }
  if piece.pieceType = .pawn ∧
      ((m.toPos.rank : Int) - (m.fromPos.rank : Int)).natAbs = 2 then
    { b1 with enPassantTarget :=
        Position.new? m.fromPos.file ((m.fromPos.rank + m.toPos.rank) / 2) }
  else
    b1

/-- Mirrors `Board::update_castling_rights` (board.rs). -/
def Board.updateCastlingRights (b : Board) (m : Move) (piece : Piece) : Board :=
  let cr := b.castlingRights
  let cr1 :=
    match piece.pieceType, piece.color with
    | .king, .white => { cr with whiteKingside := false, whiteQueenside := false }
    | .king, .black => { cr with blackKingside := false, blackQueenside := false }
    | .rook, .white =>
      if m.fromPos.file = 0 ∧ m.fromPos.rank = 0 then { cr with whiteQueenside := false }
      else if m.fromPos.file = 7 ∧ m.fromPos.rank = 0 then { cr with whiteKingside := false }
      else cr
    | .rook, .black =>
      if m.fromPos.file = 0 ∧ m.fromPos.rank = 7 then { cr with blackQueenside := false }
      else if m.fromPos.file = 7 ∧ m.fromPos.rank = 7 then { cr with blackKingside := false }
      else cr
    | _, _ => cr
  let cr2 :=
    if m.toPos.file = 0 ∧ m.toPos.rank = 0 then { cr1 with whiteQueenside := false }
    else if m.toPos.file = 7 ∧ m.toPos.rank = 0 then { cr1 with whiteKingside := false }
    else if m.toPos.file = 0 ∧ m.toPos.rank = 7 then { cr1 with blackQueenside := false }
    else if m.toPos.file = 7 ∧ m.toPos.rank = 7 then { cr1 with blackKingside := false }
    else cr1
  { b with castlingRights := cr2 }

/-- Mirrors `Board::make_move` (board.rs), step for step: fetch and check the
piece, execute the castle / en-passant / normal branch, then update the
en-passant target, the castling rights, the halfmove clock (the source tests
`!self.is_empty(chess_move.to)` on the board *after* the piece was placed),
the fullmove number (tested against `to_move` *before* it flips), and finally
flip the side to move. -/
def Board.makeMove (b : Board) (m : Move) : Except String Board :=
  match b.getPiece m.fromPos with
  | none => .error "No piece at source position"
  | some piece =>
    if piece.color ≠ b.toMove then .error "Not your turn"
    else
      let branch : Except String Board :=
        if m.isCastle then b.executeCastle m
        else if m.isEnPassant then b.executeEnPassant m
        else
          let b1 := (b.removePiece m.fromPos).1
          let movedPiece : Piece :=
            { piece with hasMoved := true,
                         pieceType := m.promotion.getD piece.pieceType }
          .ok (b1.placePiece m.toPos movedPiece)
      match branch with
      | .error e => .error e
      | .ok b2 =>
        let b3 := b2.updateEnPassantTarget m piece
        let b4 := b3.updateCastlingRights m piece
        let b5 :=
          if piece.pieceType = .pawn ∨ ¬ (b4.isEmpty m.toPos) then
            { b4 with halfmoveClock := 0 }
          else
            { b4 with halfmoveClock := b4.halfmoveClock + 1 }
        let b6 :=
          if b5.toMove = .white then
            { b5 with fullmoveNumber := b5.fullmoveNumber + 1 }
          else b5
        .ok { b6 with toMove := b6.toMove.opposite }

/-- Mirrors `Board::find_king` (board.rs): scan ranks then files for the first
king of the color. -/
def Board.findKing (b : Board) (color : Color) : Option Position :=
  ((List.range 8).flatMap fun rank =>
    (List.range 8).flatMap fun file =>
      match b.getPiece ⟨file, rank⟩ with
      | some piece =>
        if piece.pieceType = .king ∧ piece.color = color then [(⟨file, rank⟩ : Position)]
        else []
      | none => []).head?

/-- One rank of the FEN piece-placement field, as built by the inner loop of
`Board::to_fen` (board.rs): pieces interleaved with run-length counts of empty
squares. -/
def fenRank (b : Board) (rank : Nat) : String :=
  let acc := (List.range 8).foldl
    (fun (acc : String × Nat) file =>
      match b.getPiece ⟨file, rank⟩ with
      | some piece =>
        ((if acc.2 > 0 then acc.1 ++ toString acc.2 else acc.1).push piece.toFenChar, 0)
      | none => (acc.1, acc.2 + 1))
    ("", 0)
  if acc.2 > 0 then acc.1 ++ toString acc.2 else acc.1

/-- Mirrors `Board::to_fen` (board.rs): placement (ranks 8 down to 1, separated
by slashes), side to move, castling rights, en-passant target, halfmove clock
and fullmove number, space-separated. -/
def Board.toFen (b : Board) : String :=
  let placement := (List.range 8).reverse.foldl
    (fun acc rank =>
      acc ++ fenRank b rank ++ (if rank > 0 then "/" else ""))
    ""
  let side : String := match b.toMove with | .white => "w" | .black => "b"
  let castling :=
    (if b.castlingRights.whiteKingside then "K" else "") ++
    (if b.castlingRights.whiteQueenside then "Q" else "") ++
    (if b.castlingRights.blackKingside then "k" else "") ++
    (if b.castlingRights.blackQueenside then "q" else "")
  let castling := if castling = "" then "-" else castling
  let ep :=
    match b.enPassantTarget with
    | some pos => pos.toAlgebraic
    | none => "-"
  placement ++ " " ++ side ++ " " ++ castling ++ " " ++ ep ++ " " ++
    toString b.halfmoveClock ++ " " ++ toString b.fullmoveNumber

/-! ## Rules engine (rules.rs) -/

/-- Mirrors `MoveValidator::is_valid_pawn_move`'s en-passant helper
`is_valid_en_passant` (rules.rs). -/
def isValidEnPassant (b : Board) (m : Move) (piece : Piece) : Bool :=
  match b.enPassantTarget with
  | some target =>
    if m.toPos = target then
      let capturedPawnPos : Position := ⟨target.file, m.fromPos.rank⟩
      match b.getPiece capturedPawnPos with
      | some capturedPiece =>
        capturedPiece.pieceType = .pawn ∧ capturedPiece.color ≠ piece.color
      | none => false
    else false
  | none => false

/-- Mirrors `MoveValidator::is_valid_pawn_move` (rules.rs). -/
def isValidPawnMove (b : Board) (m : Move) (piece : Piece) : Bool :=
  let direction : Int := match piece.color with | .white => 1 | .black => -1
  let fileDiff : Int := (m.toPos.file : Int) - (m.fromPos.file : Int)
  let rankDiff : Int := (m.toPos.rank : Int) - (m.fromPos.rank : Int)
  if m.isEnPassant then isValidEnPassant b m piece
  else if fileDiff = 0 then
    if rankDiff = direction ∧ b.isEmpty m.toPos then true
    else if rankDiff = 2 * direction ∧ ¬ piece.hasMoved ∧ b.isEmpty m.toPos then true
    else false
  else if fileDiff.natAbs = 1 ∧ rankDiff = direction then
    b.isOccupiedBy m.toPos piece.color.opposite
  else false

/-- Mirrors `MoveValidator::is_valid_rook_move` (rules.rs). -/
def isValidRookMove (b : Board) (m : Move) : Bool :=
  if m.fromPos.file ≠ m.toPos.file ∧ m.fromPos.rank ≠ m.toPos.rank then false
  else b.isPathClear m.fromPos m.toPos

/-- Mirrors `MoveValidator::is_valid_knight_move` (rules.rs). -/
def isValidKnightMove (m : Move) : Bool :=
  let fileDiff := ((m.toPos.file : Int) - (m.fromPos.file : Int)).natAbs
  let rankDiff := ((m.toPos.rank : Int) - (m.fromPos.rank : Int)).natAbs
  (fileDiff = 2 ∧ rankDiff = 1) ∨ (fileDiff = 1 ∧ rankDiff = 2)

/-- Mirrors `MoveValidator::is_valid_bishop_move` (rules.rs). -/
def isValidBishopMove (b : Board) (m : Move) : Bool :=
  let fileDiff := ((m.toPos.file : Int) - (m.fromPos.file : Int)).natAbs
  let rankDiff := ((m.toPos.rank : Int) - (m.fromPos.rank : Int)).natAbs
  if fileDiff ≠ rankDiff then false
  else b.isPathClear m.fromPos m.toPos

/-- Mirrors `MoveValidator::is_valid_queen_move` (rules.rs). -/
def isValidQueenMove (b : Board) (m : Move) : Bool :=
  isValidRookMove b m || isValidBishopMove b m

/-- Mirrors `MoveValidator::can_pawn_attack` (rules.rs).  The source's Black
direction is the literal `01`, that is `+1`, the same as White's — kept here
exactly as written. -/
def canPawnAttack (m : Move) (piece : Piece) : Bool :=
  let direction : Int := match piece.color with | .white => 1 | .black => 1
  let fileDiff := ((m.toPos.file : Int) - (m.fromPos.file : Int)).natAbs
  let rankDiff : Int := (m.toPos.rank : Int) - (m.fromPos.rank : Int)
  fileDiff = 1 ∧ rankDiff = direction

/-- Mirrors `MoveValidator::can_piece_attack` (rules.rs). -/
def canPieceAttack (b : Board) (m : Move) (piece : Piece) : Bool :=
  match piece.pieceType with
  | .pawn => canPawnAttack m piece
  | .rook => isValidRookMove b m
  | .knight => isValidKnightMove m
  | .bishop => isValidBishopMove b m
  | .queen => isValidQueenMove b m
  | .king =>
    let fileDiff := ((m.toPos.file : Int) - (m.fromPos.file : Int)).natAbs
    let rankDiff := ((m.toPos.rank : Int) - (m.fromPos.rank : Int)).natAbs
    fileDiff ≤ 1 ∧ rankDiff ≤ 1

/-- Mirrors `MoveValidator::is_square_attacked` (rules.rs): scan every piece of
`byColor` and test `can_piece_attack` toward `pos`. -/
def isSquareAttacked (b : Board) (pos : Position) (byColor : Color) : Bool :=
  (List.range 8).any fun rank =>
    (List.range 8).any fun file =>
      match b.getPiece ⟨file, rank⟩ with
      | some piece =>
        if piece.color = byColor then
          canPieceAttack b (Move.new ⟨file, rank⟩ pos) piece
        else false
      | none => false

/-- Mirrors `MoveValidator::is_in_check` (rules.rs): false when the king is
missing. -/
def isInCheck (b : Board) (color : Color) : Bool :=
  match b.findKing color with
  | some kingPos => isSquareAttacked b kingPos color.opposite
  | none => false

/-- Mirrors `MoveValidator::is_valid_castle` (rules.rs).  The two squares the
king traverses are `from.file ± 1` and `from.file ± 2`; when either leaves the
board the source's `Position::new(..).unwrap()` panics, so no move is accepted
there — the embedding rejects the castle on that (otherwise unreachable)
path. -/
def isValidCastle (b : Board) (m : Move) (piece : Piece) : Bool :=
  if piece.hasMoved then false
  else if isInCheck b piece.color then false
  else
    let isKingside := m.toPos.file > m.fromPos.file
    let hasRight :=
      match piece.color with
      | .white => if isKingside then b.castlingRights.whiteKingside
                  else b.castlingRights.whiteQueenside
      | .black => if isKingside then b.castlingRights.blackKingside
                  else b.castlingRights.blackQueenside
    if hasRight = false then false
    else
      let rookFile : Nat := if isKingside then 7 else 0
      let rookPos : Position := ⟨rookFile, m.fromPos.rank⟩
      match b.getPiece rookPos with
      | none => false
      | some rook =>
        if rook.pieceType ≠ .rook ∨ rook.color ≠ piece.color ∨ rook.hasMoved then false
        else if ¬ b.isPathClear m.fromPos rookPos then false
        else
          let step : Int := if isKingside then 1 else -1
          match Position.new? ((m.fromPos.file : Int) + step) m.fromPos.rank,
                Position.new? ((m.fromPos.file : Int) + 2 * step) m.fromPos.rank with
          | some p1, some p2 =>
            ¬ (isSquareAttacked b p1 piece.color.opposite ||
               isSquareAttacked b p2 piece.color.opposite)
          | _, _ => false

/-- Mirrors `MoveValidator::is_valid_king_move` (rules.rs). -/
def isValidKingMove (b : Board) (m : Move) (piece : Piece) : Bool :=
  if m.isCastle then isValidCastle b m piece
  else
    let fileDiff := ((m.toPos.file : Int) - (m.fromPos.file : Int)).natAbs
    let rankDiff := ((m.toPos.rank : Int) - (m.fromPos.rank : Int)).natAbs
    fileDiff ≤ 1 ∧ rankDiff ≤ 1

/-- Mirrors `MoveValidator::is_piece_move_valid` (rules.rs). -/
def isPieceMoveValid (b : Board) (m : Move) (piece : Piece) : Bool :=
  match piece.pieceType with
  | .pawn => isValidPawnMove b m piece
  | .rook => isValidRookMove b m
  | .knight => isValidKnightMove m
  | .bishop => isValidBishopMove b m
  | .queen => isValidQueenMove b m
  | .king => isValidKingMove b m piece

/-- Mirrors `MoveValidator::would_be_in_check_after_move` (rules.rs): clone,
apply the move, and re-check the mover's king; a failing `make_move` counts as
in check. -/
def wouldBeInCheckAfterMove (b : Board) (m : Move) : Bool :=
  match b.makeMove m with
  | .ok testBoard => isInCheck testBoard b.toMove
  | .error _ => true

/-- Mirrors `MoveValidator::is_valid_move` (rules.rs): bounds, distinct
squares, occupied source of the side to move, destination not own-occupied,
piece-shape legality, and the self-check filter. -/
def isValidMove (b : Board) (m : Move) : Bool :=
  if ¬ m.fromPos.isValid ∨ ¬ m.toPos.isValid then false
  else if m.fromPos = m.toPos then false
  else
    match b.getPiece m.fromPos with
    | none => false
    | some piece =>
      if piece.color ≠ b.toMove then false
      else if b.isOccupiedBy m.toPos piece.color then false
      else if ¬ isPieceMoveValid b m piece then false
      else if wouldBeInCheckAfterMove b m then false
      else true

/-! ## Legal-move generation (rules.rs)

`generate_pawn_moves`, `generate_rook_moves` and `generate_knight_moves` are
in rules.rs; `generate_bishop_moves`, `generate_queen_moves` and
`generate_king_moves` are called by `generate_piece_moves` but their bodies are
not in the repository's files, so they are modelled from the spec (§4.B). -/

/-- The candidate promotion pushes of `generate_pawn_moves` (rules.rs): on the
last rank all four promotion kinds, otherwise a plain move. -/
def pawnTargets (fromPos toPos : Position) (color : Color) : List Move :=
  if (color = .white ∧ toPos.rank = 7) ∨ (color = .black ∧ toPos.rank = 0) then
    [Move.withPromotion fromPos toPos .queen,
     Move.withPromotion fromPos toPos .rook,
     Move.withPromotion fromPos toPos .bishop,
     Move.withPromotion fromPos toPos .knight]
  else
    [Move.new fromPos toPos]

/-- Mirrors `MoveValidator::generate_pawn_moves` (rules.rs): forward pushes
(with the double push for an unmoved pawn), diagonal captures, and the
en-passant candidate toward the board's target square. -/
def generatePawnMoves (b : Board) (fromPos : Position) (piece : Piece) : List Move :=
  let direction : Int := match piece.color with | .white => 1 | .black => -1
  let forward :=
    match Position.new? fromPos.file ((fromPos.rank : Int) + direction) with
    | some toPos =>
      if b.isEmpty toPos then
        pawnTargets fromPos toPos piece.color ++
        (if ¬ piece.hasMoved then
          match Position.new? fromPos.file ((fromPos.rank : Int) + 2 * direction) with
          | some toPos2 => if b.isEmpty toPos2 then [Move.new fromPos toPos2] else []
          | none => []
        else [])
      else []
    | none => []
  let attacks := ([-1, 1] : List Int).flatMap fun fileOffset =>
    match Position.new? ((fromPos.file : Int) + fileOffset) ((fromPos.rank : Int) + direction) with
    | some toPos =>
      (if b.isOccupiedBy toPos piece.color.opposite then
        pawnTargets fromPos toPos piece.color
      else []) ++
      (match b.enPassantTarget with
       | some target => if toPos = target then [Move.enPassant fromPos toPos] else []
       | none => [])
    | none => []
  forward ++ attacks

/-- The ray walk of `generate_rook_moves` (rules.rs): distances 1 to 7 along a
direction, stopping at the first occupied square (included when it holds an
opposing piece). -/
def rayWalk (b : Board) (opp : Color) (fromPos : Position) (df dr : Int) (dist : Nat) :
    List Move :=
  if 8 ≤ dist then []
  else
    match Position.new? ((fromPos.file : Int) + df * dist) ((fromPos.rank : Int) + dr * dist) with
    | none => []
    | some toPos =>
      if b.isEmpty toPos then
        Move.new fromPos toPos :: rayWalk b opp fromPos df dr (dist + 1)
      else if b.isOccupiedBy toPos opp then [Move.new fromPos toPos]
      else []
termination_by 8 - dist

/-- Mirrors `MoveValidator::generate_rook_moves` (rules.rs).  The source reads
the mover's color with `board.get_piece(from).unwrap()`; callers always pass an
occupied square, and the embedding returns no moves where the source would
panic. -/
def generateRookMoves (b : Board) (fromPos : Position) : List Move :=
  match b.getPiece fromPos with
  | none => []
  | some piece =>
    ([(0, 1), (0, -1), (1, 0), (-1, 0)] : List (Int × Int)).flatMap fun d =>
      rayWalk b piece.color.opposite fromPos d.1 d.2 1

/-- Mirrors `MoveValidator::generate_knight_moves` (rules.rs). -/
def generateKnightMoves (fromPos : Position) : List Move :=
  ([(2, 1), (2, -1), (-2, 1), (-2, -1), (1, 2), (1, -2), (-1, 2), (-1, -2)] :
      List (Int × Int)).flatMap fun d =>
    match Position.new? ((fromPos.file : Int) + d.1) ((fromPos.rank : Int) + d.2) with
    | some toPos => [Move.new fromPos toPos]
    | none => []

/-- Modelled from the spec: `generate_bishop_moves` is called by
`generate_piece_moves` (rules.rs) but its body is not in the repository's
files.  Spec §4.B: bishops move along diagonal rays; candidates are produced
exactly like the rook's, along the four diagonal directions. -/
def generateBishopMoves (b : Board) (fromPos : Position) : List Move :=
  match b.getPiece fromPos with
  | none => []
  | some piece =>
    ([(1, 1), (1, -1), (-1, 1), (-1, -1)] : List (Int × Int)).flatMap fun d =>
      rayWalk b piece.color.opposite fromPos d.1 d.2 1

/-- Modelled from the spec: `generate_queen_moves` is called by
`generate_piece_moves` (rules.rs) but its body is not in the repository's
files.  Spec §4.B: the queen moves like both a rook and a bishop. -/
def generateQueenMoves (b : Board) (fromPos : Position) : List Move :=
  generateRookMoves b fromPos ++ generateBishopMoves b fromPos

/-- Modelled from the spec: `generate_king_moves` is called by
`generate_piece_moves` (rules.rs) but its body is not in the repository's
files.  Spec §4.B: one square in any direction, plus castling indicated by a
two-file king move (`move.isCastle`); off-board candidates are skipped and
everything is filtered through `is_valid_move` by the caller. -/
def generateKingMoves (b : Board) (fromPos : Position) (piece : Piece) : List Move :=
  let _ := b
  let _ := piece
  let steps :=
    ([(1, 0), (1, 1), (0, 1), (-1, 1), (-1, 0), (-1, -1), (0, -1), (1, -1)] :
        List (Int × Int)).flatMap fun d =>
      match Position.new? ((fromPos.file : Int) + d.1) ((fromPos.rank : Int) + d.2) with
      | some toPos => [Move.new fromPos toPos]
      | none => []
  let castles := ([2, -2] : List Int).flatMap fun off =>
    match Position.new? ((fromPos.file : Int) + off) fromPos.rank with
    | some toPos => [Move.castle fromPos toPos]
    | none => []
  steps ++ castles

/-- Mirrors `MoveValidator::generate_piece_moves` (rules.rs).  (The source
declares no return type for this function — an oversight; the dispatch of the
per-piece generators is its evident body.) -/
def generatePieceMoves (b : Board) (fromPos : Position) (piece : Piece) : List Move :=
  match piece.pieceType with
  | .pawn => generatePawnMoves b fromPos piece
  | .rook => generateRookMoves b fromPos
  | .knight => generateKnightMoves fromPos
  | .bishop => generateBishopMoves b fromPos
  | .queen => generateQueenMoves b fromPos
  | .king => generateKingMoves b fromPos piece

/-- Mirrors `MoveValidator::generate_legal_moves` (rules.rs): per-piece
candidates of the side to move, filtered through `is_valid_move`. -/
def generateLegalMoves (b : Board) : List Move :=
  (List.range 8).flatMap fun rank =>
    (List.range 8).flatMap fun file =>
      match b.getPiece ⟨file, rank⟩ with
      | some piece =>
        if piece.color = b.toMove then
          (generatePieceMoves b ⟨file, rank⟩ piece).filter fun mv => isValidMove b mv
        else []
      | none => []

/-- Modelled from the spec: `MoveValidator::is_checkmate` is called by
`GameState::check_game_end` (game_state.rs) but its body is not in the
repository's files.  Spec §4.B: `isCheckmate(board)` = in-check ∧ no legal
moves. -/
def isCheckmate (b : Board) : Bool :=
  isInCheck b b.toMove && (generateLegalMoves b).isEmpty

/-- Modelled from the spec: `MoveValidator::is_stalemate` is called by
`GameState::check_game_end` (game_state.rs) but its body is not in the
repository's files.  Spec §4.B: `isStalemate` = not-in-check ∧ no legal
moves. -/
def isStalemate (b : Board) : Bool :=
  !isInCheck b b.toMove && (generateLegalMoves b).isEmpty

/-- Modelled from the spec: `MoveValidator::is_draw_by_fifty_move_rule` is
called by `GameState::check_game_end` (game_state.rs) but its body is not in
the repository's files.  Spec §4.C: 50-move rule ⇔ halfmove clock ≥ 100. -/
def isDrawByFiftyMoveRule (b : Board) : Bool :=
  100 ≤ b.halfmoveClock

/-! ## Game state (game_state.rs) -/

/-- Mirrors `DrawReason` (game_state.rs). -/
inductive DrawReason where
  | fiftyMoveRule
  | threefoldRepetition
  | insufficientMaterial
  | agreement
  deriving DecidableEq, Repr

/-- Mirrors `GameResult` (game_state.rs). -/
inductive GameResult where
  | ongoing
  | checkmate (winner : Color)
  | stalemate
  | draw (reason : DrawReason)
  | resignation (loser : Color)
  | timeout (loser : Color)
  deriving DecidableEq, Repr

/-- Mirrors `GameState` (game_state.rs).  The opaque `id` and the wall-clock
`created_at` / `last_move_at` timestamps play no part in any claim and are
omitted. -/
structure GameState where
  board : Board
  whitePlayer : Option String
  blackPlayer : Option String
  result : GameResult
  moveHistory : List Move
  positionHistory : List String

/-- Mirrors `GameState::new` (game_state.rs): fresh board, no players, ongoing,
and a position history seeded with the initial board's FEN. -/
def GameState.new : GameState :=
  { board := Board.new
    whitePlayer := none
    blackPlayer := none
    result := .ongoing
    moveHistory := []
    positionHistory := [Board.new.toFen] }

/-- Mirrors `GameState::get_player_color` (game_state.rs): White is checked
first. -/
def GameState.getPlayerColor (gs : GameState) (playerId : String) : Option Color :=
  if gs.whitePlayer = some playerId then some .white
  else if gs.blackPlayer = some playerId then some .black
  else none

/-- Mirrors `GameState::add_player` (game_state.rs). -/
def GameState.addPlayer (gs : GameState) (playerId : String) (color : Option Color) :
    Except String (GameState × Color) :=
  match color with
  | some .white =>
    if gs.whitePlayer.isSome then .error "White player already assigned"
    else .ok ({ gs with whitePlayer := some playerId }, .white)
  | some .black =>
    if gs.blackPlayer.isSome then .error "Black player already assigned"
    else .ok ({ gs with blackPlayer := some playerId }, .black)
  | none =>
    if gs.whitePlayer.isNone then .ok ({ gs with whitePlayer := some playerId }, .white)
    else if gs.blackPlayer.isNone then .ok ({ gs with blackPlayer := some playerId }, .black)
    else .error "Game is full"

/-- Mirrors `GameState::remove_player` (game_state.rs). -/
def GameState.removePlayer (gs : GameState) (playerId : String) : GameState :=
  let gs1 := if gs.whitePlayer = some playerId then { gs with whitePlayer := none } else gs
  if gs1.blackPlayer = some playerId then { gs1 with blackPlayer := none } else gs1

/-- Models Rust's `str::split(' ')` as used by
`GameState::is_threefold_repetition` (game_state.rs): `k` separators yield
`k + 1` pieces, empty pieces included. -/
def splitSpaces (s : String) : List String :=
  (s.data.foldr
    (fun ch (acc : List (List Char)) =>
      if ch = ' ' then [] :: acc
      else
        match acc with
        | [] => [[ch]]
        | h :: t => (ch :: h) :: t)
    [[]]).map fun l => ⟨l⟩

/-- The comparison inside `GameState::is_threefold_repetition` (game_state.rs):
both FEN strings have at least four space-separated fields and their first four
fields (placement, side to move, castling rights, en-passant) coincide. -/
def positionKeyMatches (curr pos : String) : Bool :=
  let posParts := splitSpaces pos
  let currParts := splitSpaces curr
  4 ≤ posParts.length ∧ 4 ≤ currParts.length ∧ posParts.take 4 = currParts.take 4

/-- Mirrors `GameState::is_threefold_repetition` (game_state.rs): the last
recorded position's key occurs at least three times in the history.  The
source unwraps the last element; histories built by the embedded operations
are never empty, and an empty history yields `false`. -/
def isThreefoldRepetition (positionHistory : List String) : Bool :=
  match positionHistory.getLast? with
  | none => false
  | some curr =>
    3 ≤ (positionHistory.filter fun pos => positionKeyMatches curr pos).length

/-- Mirrors `GameState::is_insufficient_material_for_color` (game_state.rs). -/
def isInsufficientMaterialForColor (pieces : List PieceType) : Bool :=
  let bishops := (pieces.filter fun t => t = .bishop).length
  let knights := (pieces.filter fun t => t = .knight).length
  let hasMajorPieces := pieces.any fun t => t = .pawn ∨ t = .rook ∨ t = .queen
  if hasMajorPieces then false
  else if bishops = 0 ∧ knights = 0 then true
  else if (bishops = 1 ∧ knights = 0) ∨ (bishops = 0 ∧ knights = 1) then true
  else false

/-- Mirrors `GameState::is_insufficient_material` (game_state.rs). -/
def isInsufficientMaterial (b : Board) : Bool :=
  let piecesOf : Color → List PieceType := fun color =>
    (List.range 8).flatMap fun rank =>
      (List.range 8).flatMap fun file =>
        match b.getPiece ⟨file, rank⟩ with
        | some piece => if piece.color = color then [piece.pieceType] else []
        | none => []
  isInsufficientMaterialForColor (piecesOf .white) &&
  isInsufficientMaterialForColor (piecesOf .black)

/-- Mirrors `GameState::check_game_end` (game_state.rs): checkmate, stalemate,
50-move rule, threefold repetition, insufficient material, in that order; the
result is left alone when none applies. -/
def GameState.checkGameEnd (gs : GameState) : GameState :=
  if isCheckmate gs.board then
    { gs with result := .checkmate gs.board.toMove.opposite }
  else if isStalemate gs.board then
    { gs with result := .stalemate }
  else if isDrawByFiftyMoveRule gs.board then
    { gs with result := .draw .fiftyMoveRule }
  else if isThreefoldRepetition gs.positionHistory then
    { gs with result := .draw .threefoldRepetition }
  else if isInsufficientMaterial gs.board then
    { gs with result := .draw .insufficientMaterial }
  else gs

/-- Mirrors `GameState::make_move` (game_state.rs): reject when the game is
over, the caller is not in the game, it is not the caller's turn, or the move
fails validation; otherwise apply the move, append it to the move history,
append the new board's FEN to the position history, and evaluate termination.
Every error path in the source returns before any mutation, so an error leaves
the state unchanged.  (The `last_move_at` timestamp update is omitted with the
field.) -/
def GameState.makeMove (gs : GameState) (playerId : String) (m : Move) :
    Except String GameState :=
  if gs.result ≠ .ongoing then .error "Game is already finished"
  else
    match gs.getPlayerColor playerId with
    | none => .error "Player not in this game"
    | some playerColor =>
      if playerColor ≠ gs.board.toMove then .error "Not your turn"
      else if ¬ isValidMove gs.board m then .error "Invalid move"
      else
        match gs.board.makeMove m with
        | .error e => .error e
        | .ok b2 =>
          .ok (GameState.checkGameEnd
            { gs with board := b2
                      moveHistory := gs.moveHistory ++ [m]
                      positionHistory := gs.positionHistory ++ [b2.toFen] })

/-- Mirrors `GameState::resign` (game_state.rs). -/
def GameState.resign (gs : GameState) (playerId : String) : Except String GameState :=
  if gs.result ≠ .ongoing then .error "Game is already finished"
  else
    match gs.getPlayerColor playerId with
    | none => .error "Player not in this game"
    | some playerColor => .ok { gs with result := .resignation playerColor }

/-- Mirrors `GameState::is_player_in_game` (game_state.rs). -/
def GameState.isPlayerInGame (gs : GameState) (playerId : String) : Bool :=
  gs.whitePlayer = some playerId ∨ gs.blackPlayer = some playerId

/-- Mirrors `GameState::offer_draw` (game_state.rs): the source immediately
records a draw by agreement. -/
def GameState.offerDraw (gs : GameState) (playerId : String) : Except String GameState :=
  if gs.result ≠ .ongoing then .error "Game is already finished"
  else if ¬ gs.isPlayerInGame playerId then .error "Player not in this game"
  else .ok { gs with result := .draw .agreement }

/-- Mirrors `GameState::timeout` (game_state.rs). -/
def GameState.timeout (gs : GameState) (playerId : String) : Except String GameState :=
  if gs.result ≠ .ongoing then .error "Game is already finished"
  else
    match gs.getPlayerColor playerId with
    | none => .error "Player not in this game"
    | some playerColor => .ok { gs with result := .timeout playerColor }

/-- The mutating `GameState` operations (game_state.rs): each Rust method
mutates `self` on success and returns early, before any mutation, on error. -/
inductive GameOp where
  | addPlayer (playerId : String) (color : Option Color)
  | removePlayer (playerId : String)
  | makeMove (playerId : String) (m : Move)
  | resign (playerId : String)
  | offerDraw (playerId : String)
  | timeout (playerId : String)

/-- Run one operation against a game state: a failing operation leaves the
state unchanged, exactly as the early-returning Rust methods do. -/
def applyGameOp (gs : GameState) : GameOp → GameState
  | .addPlayer playerId color =>
    match gs.addPlayer playerId color with
    | .ok r => r.1
    | .error _ => gs
  | .removePlayer playerId => gs.removePlayer playerId
  | .makeMove playerId m =>
    match gs.makeMove playerId m with
    | .ok gs' => gs'
    | .error _ => gs
  | .resign playerId =>
    match gs.resign playerId with
    | .ok gs' => gs'
    | .error _ => gs
  | .offerDraw playerId =>
    match gs.offerDraw playerId with
    | .ok gs' => gs'
    | .error _ => gs
  | .timeout playerId =>
    match gs.timeout playerId with
    | .ok gs' => gs'
    | .error _ => gs

/-! ## Elo rating (player/player.rs, player/mod.rs)

The f64 arithmetic of `EloCalculator` is modelled over `ℚ`.  The one
transcendental step, `10.0_f64.powf((a - b) / 400.0)`, is abstracted as the
parameter `pow10`, applied to the already-divided exponent; every theorem
below only evaluates it at exponent `0`, where `powf` returns exactly `1.0`
and all the remaining f64 operations (subtraction, division by a power of
two sum, multiplication by 32, rounding) are exact, so the rational model
computes the very same values as the source. -/

/-- Mirrors the Elo-specific `GameResult` enum of player/player.rs (distinct
from the game-state `GameResult`). -/
inductive EloGameResult where
  | playerWin
  | opponentWin
  | draw
  deriving DecidableEq, Repr

/-- Mirrors `EloCalculator::calculate_rating_change` (player/player.rs): the
expected scores use the exponent `(own − other) / 400` exactly as
`expected_score` computes it, the score pair for `PlayerWin` is the source's
`(1.0, 1.0)`, and each change is `round(K · (score − expected))` with
K = 32.  `round` models `f64::round`; the two agree away from `.5` ties and
every value rounded below is an integer. -/
def calculateRatingChange (pow10 : ℚ → ℚ) (playerRating opponentRating : ℚ)
    (result : EloGameResult) : ℤ × ℤ :=
  let playerExpected := 1 / (1 + pow10 ((playerRating - opponentRating) / 400))
  let opponentExpected := 1 / (1 + pow10 ((opponentRating - playerRating) / 400))
  let scores : ℚ × ℚ :=
    match result with
    | .playerWin => (1, 1)
    | .opponentWin => (0, 1)
    | .draw => (1/2, 1/2)
  (round (32 * (scores.1 - playerExpected)), round (32 * (scores.2 - opponentExpected)))

/-- Mirrors the rating arithmetic of `PlayerManager::update_ratings_after_game`
(player/mod.rs): add each change to the existing rating and floor the result
at 100. -/
def updateRatingsAfterGame (pow10 : ℚ → ℚ) (rating1 rating2 : ℤ)
    (result : EloGameResult) : ℤ × ℤ :=
  let changes := calculateRatingChange pow10 (rating1 : ℚ) (rating2 : ℚ) result
  (max (rating1 + changes.1) 100, max (rating2 + changes.2) 100)

/-! ## Protocol codec (network/protocol.rs)

`Message::from_json` checks the encoded size, hands the string to
`serde_json::from_str`, and checks the envelope's version.  The serde parse
is library code outside the repository, so it is abstracted as the `parse`
parameter; the `~30`-variant payload plays no role in `from_json` and is
elided from the envelope. -/

/-- Mirrors `PROTOCOL_VERSION` (protocol.rs). -/
def protocolVersion : String := "1.0"

/-- Mirrors `MAX_MESSAGE_SIZE` (protocol.rs): 1 MiB. -/
def maxMessageSize : Nat := 1024 * 1024

/-- Mirrors the `Message` envelope (protocol.rs): optional id, version and
timestamp; the typed payload is elided (see above). -/
structure Message where
  id : Option String
  version : String
  timestamp : Nat
  deriving DecidableEq, Repr

/-- The error variants `Message::from_json` (protocol.rs) can produce, from
the `ChessServerError` taxonomy (utils/error.rs). -/
inductive ProtocolError where
  | messageTooLarge (size : Nat)
  | protocolVersionMismatch (expected actual : String)
  | serializationError
  deriving DecidableEq, Repr

/-- Mirrors `Message::from_json` (protocol.rs): strings longer than 1 MiB fail
with `MessageTooLarge` before anything is parsed; a parse failure becomes a
serialization error; a parsed envelope whose version differs from `"1.0"`
fails with `ProtocolVersionMismatch`.  `String.length` counts characters where
`json.len()` counts bytes; they agree on ASCII input, and every concrete
input evaluated below is ASCII. -/
def Message.fromJson (parse : String → Except String Message) (json : String) :
    Except ProtocolError Message :=
  if json.length > maxMessageSize then .error (.messageTooLarge json.length)
  else
    match parse json with
    | .error _ => .error .serializationError
    | .ok message =>
      if message.version ≠ protocolVersion then
        .error (.protocolVersionMismatch protocolVersion message.version)
      else .ok message

/-! ## Concrete fixtures used by witnesses and counterexamples -/

/-- A small position: White king a1, White pawn b7, Black king h8, White to
move (built on `Board::empty`, so castling rights are off). -/
def cb : Board :=
  ((Board.empty.placePiece ⟨0, 0⟩ (Piece.new .king .white)).placePiece
    ⟨1, 6⟩ (Piece.new .pawn .white)).placePiece ⟨7, 7⟩ (Piece.new .king .black)

/-- A board holding a lone Black pawn on d5. -/
def bAtt : Board := Board.empty.placePiece ⟨3, 4⟩ (Piece.new .pawn .black)

/-- A two-player game on the board `cb`. -/
def gsmall : GameState :=
  { board := cb
    whitePlayer := some "w"
    blackPlayer := some "b"
    result := .ongoing
    moveHistory := []
    positionHistory := [cb.toFen] }

/-! ## Helper lemmas -/

instance {ε α : Type _} [DecidableEq ε] [DecidableEq α] : DecidableEq (Except ε α) :=
  fun x y =>
    match x, y with
    | .ok a, .ok b =>
      if h : a = b then isTrue (by rw [h]) else isFalse (by simp [h])
    | .error e, .error f =>
      if h : e = f then isTrue (by rw [h]) else isFalse (by simp [h])
    | .ok _, .error _ => isFalse (by simp)
    | .error _, .ok _ => isFalse (by simp)

/-- A move `is_valid_move` accepts passed the self-check filter, so the cloned
`make_move` succeeded and left the mover out of check. -/
theorem exists_ok_of_isValidMove (b : Board) (m : Move) (h : isValidMove b m = true) :
    ∃ b2, b.makeMove m = .ok b2 ∧ isInCheck b2 b.toMove = false := by
  have hw : wouldBeInCheckAfterMove b m = false := by
    unfold isValidMove at h
    split at h
    · exact absurd h (by simp)
    · split at h
      · exact absurd h (by simp)
      · split at h
        · exact absurd h (by simp)
        · split at h
          · exact absurd h (by simp)
          · split at h
            · exact absurd h (by simp)
            · split at h
              · exact absurd h (by simp)
              · split at h
                · exact absurd h (by simp)
                · rename_i hcheck
                  simpa using hcheck
  unfold wouldBeInCheckAfterMove at hw
  cases hmk : b.makeMove m with
  | ok b2 => exact ⟨b2, rfl, by rw [hmk] at hw; exact hw⟩
  | error e => rw [hmk] at hw; simp at hw

/-- `check_game_end` only rewrites the result field. -/
theorem checkGameEnd_board (gs : GameState) : gs.checkGameEnd.board = gs.board := by
  unfold GameState.checkGameEnd
  repeat' split
  all_goals rfl

/-- `check_game_end` leaves the position history alone. -/
theorem checkGameEnd_positionHistory (gs : GameState) :
    gs.checkGameEnd.positionHistory = gs.positionHistory := by
  unfold GameState.checkGameEnd
  repeat' split
  all_goals rfl

/-- `check_game_end` leaves the move history alone. -/
theorem checkGameEnd_moveHistory (gs : GameState) :
    gs.checkGameEnd.moveHistory = gs.moveHistory := by
  unfold GameState.checkGameEnd
  repeat' split
  all_goals rfl

/-! ## Claim theorems -/

/-- C2: every move accepted by `is_valid_move` leaves the mover out of check
once applied — `make_move` succeeds on it and `is_in_check` on the mover's
color is false afterwards; the statement quantifies over all moves, castling
and en-passant included. -/
theorem valid_move_leaves_no_self_check (b : Board) (m : Move)
    (h : isValidMove b m = true) :
    ∃ b2, b.makeMove m = .ok b2 ∧ isInCheck b2 b.toMove = false :=
  exists_ok_of_isValidMove b m h

/-- C2 witness: the king step a1–a2 on the fixture board is valid, and applying
it leaves White out of check. -/
theorem valid_move_leaves_no_self_check_witness :
    ∃ b2, cb.makeMove (Move.new ⟨0, 0⟩ ⟨0, 1⟩) = .ok b2 ∧
      isInCheck b2 cb.toMove = false :=
  valid_move_leaves_no_self_check cb (Move.new ⟨0, 0⟩ ⟨0, 1⟩) (by decide)

/-- C3: evaluation of `Board::make_move` at the failing input.  The knight
development g1–f3 from the start position is neither a pawn move nor a
capture, so the claim expects the halfmove clock to become 1; the code resets
it to 0, because the capture test `!self.is_empty(chess_move.to)` runs after
the moved piece was placed on the destination and is therefore always true. -/
theorem halfmove_clock_resets_on_knight_move :
    (Board.new.makeMove (Move.new ⟨6, 0⟩ ⟨5, 2⟩)).map Board.halfmoveClock = .ok 0 := by
  decide

/-- C4: evaluation of `Board::make_move` at the failing input.  After White's
first move e2–e4 the claim expects the fullmove number still to be 1 (it
should increment only after Black's move); the code increments it to 2,
because the test `self.to_move == Color::White` runs before the side to move
flips and therefore fires after every White move. -/
theorem fullmove_increments_after_white_move :
    (Board.new.makeMove (Move.new ⟨4, 1⟩ ⟨4, 3⟩)).map Board.fullmoveNumber = .ok 2 := by
  decide

/-- C5: evaluation of `is_square_attacked` at the failing input.  A lone Black
pawn stands on d5.  The claim says a Black pawn attacks one diagonal step in
Black's forward direction (toward rank 1), so c4 should be attacked and c6
should not; the code reports the opposite, because `can_pawn_attack` uses the
direction literal `01` (that is `+1`) for Black. -/
theorem black_pawn_attack_direction_eval :
    isSquareAttacked bAtt ⟨2, 3⟩ .black = false ∧
    isSquareAttacked bAtt ⟨2, 5⟩ .black = true := by
  decide

/-- C9 counterexample: on a concrete board the two sets differ.  The pawn push
b7–b8 with no promotion field passes `is_valid_move` (the pawn-move validator
never inspects `move.promotion`), yet `generate_legal_moves` only emits the
four promotion-carrying variants of that push, so set equality fails. -/
theorem generateLegalMoves_not_complete_counterexample :
    isValidMove cb (Move.new ⟨1, 6⟩ ⟨1, 7⟩) = true ∧
    Move.new ⟨1, 6⟩ ⟨1, 7⟩ ∉ generateLegalMoves cb := by
  decide

/-- C9 (amended): one inclusion does hold — every move emitted by
`generate_legal_moves` passes `is_valid_move`, since the generator filters
every candidate through it. -/
theorem generateLegalMoves_sound (b : Board) (m : Move)
    (h : m ∈ generateLegalMoves b) : isValidMove b m = true := by
  unfold generateLegalMoves at h
  rw [List.mem_flatMap] at h
  obtain ⟨rank, -, h⟩ := h
  rw [List.mem_flatMap] at h
  obtain ⟨file, -, h⟩ := h
  split at h
  · split at h
    · exact (List.mem_filter.mp h).2
    · simp at h
  · simp at h

/-- C9 witness: the queen-promotion push b7–b8 is generated on the fixture
board and indeed valid. -/
theorem generateLegalMoves_sound_witness :
    Move.withPromotion ⟨1, 6⟩ ⟨1, 7⟩ .queen ∈ generateLegalMoves cb ∧
    isValidMove cb (Move.withPromotion ⟨1, 6⟩ ⟨1, 7⟩ .queen) = true :=
  ⟨by decide, generateLegalMoves_sound cb (Move.withPromotion ⟨1, 6⟩ ⟨1, 7⟩ .queen) (by decide)⟩

/-- C7: `GameState::make_move` succeeds exactly when the game is still
ongoing, the caller owns the side to move, and the move passes
`is_valid_move`; on any failed precondition it returns an error (and, the
Rust method returning before any mutation, the state is unchanged). -/
theorem makeMove_succeeds_iff_preconditions (gs : GameState) (playerId : String) (m : Move) :
    (∃ gs', gs.makeMove playerId m = .ok gs') ↔
      (gs.result = .ongoing ∧ gs.getPlayerColor playerId = some gs.board.toMove ∧
        isValidMove gs.board m = true) := by
  constructor
  · rintro ⟨gs', h⟩
    unfold GameState.makeMove at h
    split at h
    · simp at h
    · rename_i hres
      split at h
      · simp at h
      · rename_i playerColor hcolor
        split at h
        · simp at h
        · rename_i hturn
          split at h
          · simp at h
          · rename_i hvalid
            refine ⟨by simpa using hres, ?_, by simpa using hvalid⟩
            rw [hcolor]
            simp at hturn
            rw [hturn]
  · rintro ⟨h1, h2, h3⟩
    obtain ⟨b2, hb2, -⟩ := exists_ok_of_isValidMove gs.board m h3
    refine ⟨?_, ?_⟩
    · exact GameState.checkGameEnd
        { gs with board := b2
                  moveHistory := gs.moveHistory ++ [m]
                  positionHistory := gs.positionHistory ++ [b2.toFen] }
    · unfold GameState.makeMove
      rw [h1, h2, h3, hb2]
      simp

/-- On an ongoing state, `check_game_end` yields `Draw(ThreefoldRepetition)`
exactly when checkmate, stalemate and the fifty-move rule are absent and the
repetition count reaches three. -/
theorem checkGameEnd_threefold_iff (gs : GameState) (h : gs.result = .ongoing) :
    gs.checkGameEnd.result = .draw .threefoldRepetition ↔
      (isCheckmate gs.board = false ∧ isStalemate gs.board = false ∧
        isDrawByFiftyMoveRule gs.board = false ∧
        isThreefoldRepetition gs.positionHistory = true) := by
  unfold GameState.checkGameEnd
  cases hcm : isCheckmate gs.board
  · cases hsm : isStalemate gs.board
    · cases hf : isDrawByFiftyMoveRule gs.board
      · cases h3 : isThreefoldRepetition gs.positionHistory
        · cases hins : isInsufficientMaterial gs.board <;>
            simp [hcm, hsm, hf, h3, hins, h]
        · simp [hcm, hsm, hf, h3]
      · simp [hcm, hsm, hf]
    · simp [hcm, hsm]
  · simp [hcm]

/-- C6: after a successful `make_move` the result is `Draw(ThreefoldRepetition)`
exactly when checkmate, stalemate and the fifty-move rule are all absent and
the current position key — via `positionKeyMatches`, the first four
space-separated FEN fields, clocks excluded — occurs at least three times in
the position history (`is_threefold_repetition`). -/
theorem makeMove_threefold_repetition_iff (gs : GameState) (playerId : String) (m : Move)
    (gs' : GameState) (h : gs.makeMove playerId m = .ok gs') :
    gs'.result = .draw .threefoldRepetition ↔
      (isCheckmate gs'.board = false ∧ isStalemate gs'.board = false ∧
        isDrawByFiftyMoveRule gs'.board = false ∧
        isThreefoldRepetition gs'.positionHistory = true) := by
  unfold GameState.makeMove at h
  split at h
  · simp at h
  rename_i hres0
  split at h
  · simp at h
  split at h
  · simp at h
  split at h
  · simp at h
  split at h
  · simp at h
  rename_i b2 hb2
  rw [Except.ok.injEq] at h
  subst h
  rw [checkGameEnd_board, checkGameEnd_positionHistory]
  exact checkGameEnd_threefold_iff _ (by simpa using hres0)

/-- The state after White promotes on the fixture game (the successful
`make_move` used by the C6 witness). -/
def gsmallAfter : GameState :=
  match gsmall.makeMove "w" (Move.withPromotion ⟨1, 6⟩ ⟨1, 7⟩ .queen) with
  | .ok gs' => gs'
  | .error _ => gsmall

/-- C6 witness: the queen promotion on the fixture game succeeds, and the
threefold-repetition biconditional holds at that concrete state. -/
theorem makeMove_threefold_repetition_iff_witness :
    gsmall.makeMove "w" (Move.withPromotion ⟨1, 6⟩ ⟨1, 7⟩ .queen) = .ok gsmallAfter ∧
      (gsmallAfter.result = .draw .threefoldRepetition ↔
        (isCheckmate gsmallAfter.board = false ∧ isStalemate gsmallAfter.board = false ∧
          isDrawByFiftyMoveRule gsmallAfter.board = false ∧
          isThreefoldRepetition gsmallAfter.positionHistory = true)) :=
  ⟨rfl, makeMove_threefold_repetition_iff gsmall "w"
    (Move.withPromotion ⟨1, 6⟩ ⟨1, 7⟩ .queen) gsmallAfter rfl⟩

/-- A successful `GameState::make_move` appends exactly one move and one
position key. -/
theorem makeMove_history_lengths (gs : GameState) (playerId : String) (m : Move)
    (gs' : GameState) (h : gs.makeMove playerId m = .ok gs') :
    gs'.positionHistory.length = gs.positionHistory.length + 1 ∧
      gs'.moveHistory.length = gs.moveHistory.length + 1 := by
  unfold GameState.makeMove at h
  split at h
  · simp at h
  split at h
  · simp at h
  split at h
  · simp at h
  split at h
  · simp at h
  split at h
  · simp at h
  rw [Except.ok.injEq] at h
  subst h
  rw [checkGameEnd_positionHistory, checkGameEnd_moveHistory]
  simp

/-- `add_player` never touches the histories. -/
theorem addPlayer_histories (gs : GameState) (playerId : String) (color : Option Color)
    (r : GameState × Color) (h : gs.addPlayer playerId color = .ok r) :
    r.1.positionHistory = gs.positionHistory ∧ r.1.moveHistory = gs.moveHistory := by
  unfold GameState.addPlayer at h
  split at h
  · split at h
    · exact absurd h (by simp)
    · rw [Except.ok.injEq] at h; rw [← h]; exact ⟨rfl, rfl⟩
  · split at h
    · exact absurd h (by simp)
    · rw [Except.ok.injEq] at h; rw [← h]; exact ⟨rfl, rfl⟩
  · split at h
    · rw [Except.ok.injEq] at h; rw [← h]; exact ⟨rfl, rfl⟩
    · split at h
      · rw [Except.ok.injEq] at h; rw [← h]; exact ⟨rfl, rfl⟩
      · exact absurd h (by simp)

/-- `remove_player` never touches the histories. -/
theorem removePlayer_histories (gs : GameState) (playerId : String) :
    (gs.removePlayer playerId).positionHistory = gs.positionHistory ∧
      (gs.removePlayer playerId).moveHistory = gs.moveHistory := by
  unfold GameState.removePlayer
  dsimp only
  split <;> split <;> exact ⟨rfl, rfl⟩

/-- `resign` never touches the histories. -/
theorem resign_histories (gs : GameState) (playerId : String) (gs' : GameState)
    (h : gs.resign playerId = .ok gs') :
    gs'.positionHistory = gs.positionHistory ∧ gs'.moveHistory = gs.moveHistory := by
  unfold GameState.resign at h
  split at h
  · simp at h
  · split at h
    · simp at h
    · rw [Except.ok.injEq] at h; rw [← h]; exact ⟨rfl, rfl⟩

/-- `offer_draw` never touches the histories. -/
theorem offerDraw_histories (gs : GameState) (playerId : String) (gs' : GameState)
    (h : gs.offerDraw playerId = .ok gs') :
    gs'.positionHistory = gs.positionHistory ∧ gs'.moveHistory = gs.moveHistory := by
  unfold GameState.offerDraw at h
  split at h
  · simp at h
  · split at h
    · simp at h
    · rw [Except.ok.injEq] at h; rw [← h]; exact ⟨rfl, rfl⟩

/-- `timeout` never touches the histories. -/
theorem timeout_histories (gs : GameState) (playerId : String) (gs' : GameState)
    (h : gs.timeout playerId = .ok gs') :
    gs'.positionHistory = gs.positionHistory ∧ gs'.moveHistory = gs.moveHistory := by
  unfold GameState.timeout at h
  split at h
  · simp at h
  · split at h
    · simp at h
    · rw [Except.ok.injEq] at h; rw [← h]; exact ⟨rfl, rfl⟩

/-- Every single operation preserves the history-length invariant. -/
theorem applyGameOp_history_invariant (gs : GameState) (op : GameOp)
    (h : gs.positionHistory.length = gs.moveHistory.length + 1) :
    (applyGameOp gs op).positionHistory.length =
      (applyGameOp gs op).moveHistory.length + 1 := by
  cases op with
  | addPlayer playerId color =>
    cases hr : gs.addPlayer playerId color with
    | ok r =>
      obtain ⟨h1, h2⟩ := addPlayer_histories gs playerId color r hr
      simp only [applyGameOp, hr, h1, h2]
      exact h
    | error _ => simp only [applyGameOp, hr]; exact h
  | removePlayer playerId =>
    obtain ⟨h1, h2⟩ := removePlayer_histories gs playerId
    simp only [applyGameOp, h1, h2]
    exact h
  | makeMove playerId m =>
    cases hr : gs.makeMove playerId m with
    | ok gs' =>
      obtain ⟨h1, h2⟩ := makeMove_history_lengths gs playerId m gs' hr
      simp only [applyGameOp, hr, h1, h2, h]
    | error _ => simp only [applyGameOp, hr]; exact h
  | resign playerId =>
    cases hr : gs.resign playerId with
    | ok gs' =>
      obtain ⟨h1, h2⟩ := resign_histories gs playerId gs' hr
      simp only [applyGameOp, hr, h1, h2]
      exact h
    | error _ => simp only [applyGameOp, hr]; exact h
  | offerDraw playerId =>
    cases hr : gs.offerDraw playerId with
    | ok gs' =>
      obtain ⟨h1, h2⟩ := offerDraw_histories gs playerId gs' hr
      simp only [applyGameOp, hr, h1, h2]
      exact h
    | error _ => simp only [applyGameOp, hr]; exact h
  | timeout playerId =>
    cases hr : gs.timeout playerId with
    | ok gs' =>
      obtain ⟨h1, h2⟩ := timeout_histories gs playerId gs' hr
      simp only [applyGameOp, hr, h1, h2]
      exact h
    | error _ => simp only [applyGameOp, hr]; exact h

/-- The invariant holds for every state reachable from a given state. -/
theorem foldl_history_invariant (ops : List GameOp) (gs : GameState)
    (h : gs.positionHistory.length = gs.moveHistory.length + 1) :
    (ops.foldl applyGameOp gs).positionHistory.length =
      (ops.foldl applyGameOp gs).moveHistory.length + 1 := by
  induction ops generalizing gs with
  | nil => exact h
  | cons op rest ih =>
    exact ih (applyGameOp gs op) (applyGameOp_history_invariant gs op h)

/-- C10: every state reachable from `GameState::new` by any sequence of the
mutating operations satisfies
`position_history.len() == move_history.len() + 1` — the history starts with
the initial board's FEN, a successful `make_move` appends exactly one entry to
each history, and no other operation (nor a failing `make_move`) touches
either. -/
theorem position_history_length_invariant (ops : List GameOp) :
    (ops.foldl applyGameOp GameState.new).positionHistory.length =
      (ops.foldl applyGameOp GameState.new).moveHistory.length + 1 :=
  foldl_history_invariant ops GameState.new (by rfl)

/-- C1: evaluation of the Elo update at the failing input.  Both players are
rated 1500 and player 1 wins, so the claim (and the module's own
`test_rating_update`) expects new ratings (1516, 1484).  At equal ratings the
`powf` exponent is exactly 0, where any model of `powf` returns 1; both
expected scores are then exactly ½, and because the source scores `PlayerWin`
as `(1.0, 1.0)` — the opponent's score should be `0.0` — both changes come
out as `round(32·(1−½)) = +16`: the loser gains 16 points too, and the update
yields (1516, 1516). -/
theorem elo_playerWin_equal_ratings_eval (pow10 : ℚ → ℚ) (hpow : pow10 0 = 1) :
    updateRatingsAfterGame pow10 1500 1500 .playerWin = (1516, 1516) := by
  unfold updateRatingsAfterGame calculateRatingChange
  norm_num [hpow]

/-- C1 witness: the evaluation instantiated with a concrete model of `powf`. -/
theorem elo_playerWin_equal_ratings_eval_witness :
    updateRatingsAfterGame (fun _ => 1) 1500 1500 .playerWin = (1516, 1516) :=
  elo_playerWin_equal_ratings_eval (fun _ => 1) rfl

/-- The concrete parse oracle for the C8 counterexample: every string parses
to an envelope with version `"2.0"` (serde imposes no size limit of its own,
so a large version-2.0 envelope is parseable). -/
def parseV2 : String → Except String Message := fun _ => .ok ⟨none, "2.0", 0⟩

/-- An ASCII string one byte over the 1 MiB limit. -/
def bigString : String := ⟨List.replicate (1024 * 1024 + 1) 'a'⟩

/-- C8 counterexample: a string can exceed 1 MiB *and* parse to an envelope
whose version differs from `"1.0"`; `from_json` then fails with
`MessageTooLarge`, not with `ProtocolVersionMismatch`, because the size check
runs first — so the claim's two "whenever" clauses cannot both hold. -/
theorem fromJson_size_precedence_counterexample :
    parseV2 bigString = .ok ⟨none, "2.0", 0⟩ ∧
    ("2.0" : String) ≠ "1.0" ∧
    Message.fromJson parseV2 bigString = .error (.messageTooLarge (1024 * 1024 + 1)) ∧
    Message.fromJson parseV2 bigString ≠
      .error (.protocolVersionMismatch "1.0" "2.0") := by
  have hlen : bigString.length = 1024 * 1024 + 1 :=
    List.length_replicate (1024 * 1024 + 1) 'a'
  refine ⟨rfl, by decide, ?_, ?_⟩
  · unfold Message.fromJson
    rw [hlen]
    simp [maxMessageSize]
  · unfold Message.fromJson
    rw [hlen]
    simp [maxMessageSize]

/-- C8 (amended): the three guarantees of `Message::from_json`, with the size
check taking precedence — for every parse oracle and input string, an input
over 1 MiB fails with `MessageTooLarge`; an input within the limit that
parses to an envelope whose version differs from `"1.0"` fails with
`ProtocolVersionMismatch`; and every successfully decoded message has version
`"1.0"`. -/
theorem fromJson_amended_error_conditions
    (parse : String → Except String Message) (s : String) :
    (s.length > maxMessageSize →
      Message.fromJson parse s = .error (.messageTooLarge s.length)) ∧
    (s.length ≤ maxMessageSize → ∀ msg, parse s = .ok msg → msg.version ≠ protocolVersion →
      Message.fromJson parse s = .error (.protocolVersionMismatch protocolVersion msg.version)) ∧
    (∀ msg, Message.fromJson parse s = .ok msg → msg.version = protocolVersion) := by
  refine ⟨?_, ?_, ?_⟩
  · intro hbig
    unfold Message.fromJson
    rw [if_pos hbig]
  · intro hsmall msg hparse hver
    unfold Message.fromJson
    rw [if_neg (by omega), hparse]
    simp [hver]
  · intro msg h
    unfold Message.fromJson at h
    split at h
    · simp at h
    · split at h
      · simp at h
      · split at h
        · simp at h
        · rename_i heq hver
          rw [Except.ok.injEq] at h
          subst h
          simpa using hver

end ChessServer
